import Mathlib

/-!
Shallow embedding of `backend/main.py` from the Churn_prediction repository:
a FastAPI service with a schema detector, a trainer endpoint and two
inference endpoints.  Pandas dataframes are modelled as lists of named,
dtyped columns; the sklearn pipeline, which the spec declares a black box,
is a parameter (a per-row function that may raise).  HTTP errors are a
status/detail pair; Python exceptions are an explicit sum.
-/

namespace Churn

/-- A cell value of a dataframe: a number (int or float collapsed to `ℚ`),
a string, or a missing value (`NaN`/`None`). -/
inductive Value where
  | num (q : ℚ)
  | str (s : String)
  | na
deriving DecidableEq, Repr

/-- The pandas dtype of a column, summarised to what
`pd.api.types.is_numeric_dtype` / `is_integer_dtype` distinguish. -/
inductive Dtype where
  | int64
  | float64
  | object
deriving DecidableEq, Repr

/-- A dataframe column: its name, dtype and cell values. -/
structure Col where
  name : String
  dtype : Dtype
  values : List Value
deriving DecidableEq, Repr

/-- A dataframe is its list of columns (in order). -/
structure Df where
  cols : List Col
deriving DecidableEq, Repr

/-- The column names of a dataframe, in order (`df.columns`). -/
def Df.names (df : Df) : List String := df.cols.map Col.name

/-- `df[names]`: column selection by a list of names, in the order of the
list (every requested name is assumed present, as at all call sites). -/
def Df.select (df : Df) (names : List String) : Df :=
  ⟨names.filterMap (fun n => df.cols.find? (fun c => c.name = n))⟩

/-- `pd.api.types.is_numeric_dtype`. -/
def is_numeric_dtype (c : Col) : Bool :=
  c.dtype = Dtype.int64 || c.dtype = Dtype.float64

/-- `pd.api.types.is_integer_dtype`. -/
def is_integer_dtype (c : Col) : Bool :=
  c.dtype = Dtype.int64

/-- `df[col].nunique(dropna=True)`: number of distinct non-null values. -/
def nunique (c : Col) : Nat :=
  ((c.values.filter (fun v => v ≠ Value.na)).dedup).length

/-- The branch condition of `detect_column_types` that sends a column to
the numerical list: numeric dtype, and not a low-cardinality integer. -/
def isNumericalCol (c : Col) : Bool :=
  is_numeric_dtype c && !(is_integer_dtype c && nunique c ≤ 10)

/-- `detect_column_types(df)` from `main.py`: walk the columns in order;
a numeric-dtype column goes to the numerical list unless it is an integer
column with at most 10 distinct non-null values (then categorical); every
non-numeric-dtype column goes to the categorical list. -/
def detect_column_types : List Col → List String × List String
  | [] => ([], [])
  | c :: rest =>
    let (numerical, categorical) := detect_column_types rest
    if is_numeric_dtype c then
      if is_integer_dtype c && nunique c ≤ 10 then
        (numerical, c.name :: categorical)
      else
        (c.name :: numerical, categorical)
    else
      (numerical, c.name :: categorical)

/-- The candidate loop of `detect_target_column`: the first of
`["Churn", "Exited", "churn", "target"]` present among the columns, else
the `ValueError` message. -/
def findCandidateTarget (cols : List String) : Except String String :=
  match ["Churn", "Exited", "churn", "target"].find? (fun cand => cols.contains cand) with
  | some cand => Except.ok cand
  | none => Except.error "No target column found. Please specify with ?target= parameter"

/-- Python truthiness of the `Optional[str]` parameter: `None` and the
empty string are falsy. -/
def pyTruthy : Option String → Bool
  | none => false
  | some s => s ≠ ""

/-- `detect_target_column(df, target_param)` from `main.py`.  The guard is
`if target_param:`, i.e. Python truthiness: `None` and `""` both fall
through to the candidate search. -/
def detect_target_column (cols : List String) (target_param : Option String) :
    Except String String :=
  if pyTruthy target_param then
    match target_param with
    | some t =>
      if cols.contains t then Except.ok t
      else Except.error ("Target column '" ++ t ++ "' not found in dataset")
    | none => Except.error "unreachable"
  else
    findCandidateTarget cols

/-- Python `str.lower()` (character-wise, which is all the code needs). -/
def pyLower (s : String) : String := ⟨s.data.map Char.toLower⟩

/-- Python `str.endswith(t)`. -/
def pyEndsWith (s t : String) : Bool := t.data.isSuffixOf s.data

/-- Lexicographic comparison of char lists by code point. -/
def charListLe : List Char → List Char → Bool
  | [], _ => true
  | _ :: _, [] => false
  | a :: as, b :: bs =>
    if a.toNat < b.toNat then true
    else if b.toNat < a.toNat then false
    else charListLe as bs

/-- Python `≤` on strings (lexicographic by code point), as `sorted`
compares them. -/
def strLe (a b : String) : Bool := charListLe a.data b.data

/-- Strip leading and trailing whitespace. -/
def trimChars (l : List Char) : List Char :=
  ((l.dropWhile Char.isWhitespace).reverse.dropWhile Char.isWhitespace).reverse

/-- Value of a list of decimal digit characters. -/
def natOfDigits (l : List Char) : Nat :=
  l.foldl (fun a c => a * 10 + (c.toNat - 48)) 0

/-- Numeric parsing of a string, modelling what `pd.to_numeric` accepts on
a string cell: optional surrounding whitespace, an optional sign, then a
decimal integer or decimal fraction.  Returns `none` when the string is
not numeric (pandas raises `ValueError` with `errors='raise'`). -/
def parseNum (s : String) : Option ℚ :=
  let t := trimChars s.data
  let sgn : ℚ := match t with
    | '-' :: _ => -1
    | _ => 1
  let body := match t with
    | '-' :: rest => rest
    | '+' :: rest => rest
    | _ => t
  let ip := body.takeWhile (fun c => c ≠ '.')
  match body.dropWhile (fun c => c ≠ '.') with
  | [] =>
    if ip ≠ [] && ip.all Char.isDigit then
      some (sgn * (natOfDigits ip : ℚ))
    else none
  | _ :: fp =>
    if fp.contains '.' then none
    else if (ip ≠ [] || fp ≠ []) && ip.all Char.isDigit && fp.all Char.isDigit then
      some (sgn * ((natOfDigits ip : ℚ) +
        (natOfDigits fp : ℚ) / ((10 : ℚ) ^ fp.length)))
    else none

/-- `pd.to_numeric(·, errors='raise')` on a single cell: numbers pass
through, `NaN` stays `NaN`, a string must parse as a number, anything else
raises (`none`). -/
def to_numericVal : Value → Option Value
  | Value.num q => some (Value.num q)
  | Value.na => some Value.na
  | Value.str s => (parseNum s).map Value.num

/-- A FastAPI `HTTPException`: status code and detail message. -/
structure HTTPError where
  status : Nat
  detail : String
deriving DecidableEq, Repr

/-- A Python exception as the handlers see it: either an `HTTPException`
or any other exception, reduced to its message. -/
inductive PyExc where
  | http (e : HTTPError)
  | other (msg : String)
deriving DecidableEq, Repr

/-- The `try/except` tail shared by the three handlers:
`except HTTPException: raise` re-raises unchanged, and
`except Exception as e` becomes a 500 whose detail is the handler's
message head followed by `str(e)`. -/
def wrapHTTP {α : Type} (msgHead : String) : Except PyExc α → Except HTTPError α
  | Except.ok a => Except.ok a
  | Except.error (PyExc.http e) => Except.error e
  | Except.error (PyExc.other m) => Except.error ⟨500, msgHead ++ m⟩

/-- A single JSON record / dataframe row: association list of column name
to cell value. -/
abbrev Row := List (String × Value)

/-- The fitted sklearn pipeline, a black box per the spec: maps one row of
feature values to `(predict, predict_proba[, 1])`, or raises. -/
abbrev PipelineFn := Row → Except String (Int × ℚ)

/-- The module-level globals of `main.py`. -/
structure ServerState where
  model : Option PipelineFn
  pipeline : Option PipelineFn
  feature_columns : Option (List String)
  target_column : Option String
  categorical_columns : Option (List String)
  numerical_columns : Option (List String)
  categorical_values : Option (List (String × List String))

/-- The blob written by `joblib.dump` to `model/model.joblib`. -/
structure ModelData where
  pipeline : PipelineFn
  feature_columns : List String
  target_column : String
  categorical_columns : List String
  numerical_columns : List String
  categorical_values : List (String × List String)

/-- Response model of `/predict`. -/
structure PredictionResponse where
  prediction : Int
  probability : ℚ
deriving DecidableEq, Repr

/-- The keys of a row (`df_input.columns`). -/
def rowKeys (r : Row) : List String := r.map Prod.fst

/-- `set(feature_columns) - set(cols)`, kept in `feature_columns` order;
only its (non)emptiness and membership matter to the handlers. -/
def missingCols (feats cols : List String) : List String :=
  feats.filter (fun c => !cols.contains c)

/-- Comma-separated rendering of a name list, standing in for Python's
formatting of lists/sets inside error details. -/
def joinComma (l : List String) : String := String.intercalate ", " l

/-- Rendering of a cell value, standing in for Python `str()`. -/
def strOfValue : Value → String
  | Value.num q => toString q
  | Value.str s => s
  | Value.na => "nan"

/-- `df_input[feature_columns]` on a single row: reindex to the feature
columns (all present once the missing-columns check has passed). -/
def rowSelect (names : List String) (r : Row) : Row :=
  names.map (fun n => (n, (r.lookup n).getD Value.na))

/-- Column assignment inside a row. -/
def setRowVal (r : Row) (n : String) (v : Value) : Row :=
  r.map (fun p => if p.fst = n then (p.fst, v) else p)

/-- The numeric-coercion loop of `predict_single`: for each schema
numerical column present in the reindexed input, coerce its value with
`pd.to_numeric(errors='raise')`; a failure becomes the 400 error raised
there. -/
def coerceRowNum : List String → Row → Except HTTPError Row
  | [], r => Except.ok r
  | c :: rest, r =>
    if (rowKeys r).contains c then
      match to_numericVal ((r.lookup c).getD Value.na) with
      | some v => coerceRowNum rest (setRowVal r c v)
      | none =>
        Except.error ⟨400, "Column '" ++ c ++ "' must be numeric. Received: " ++
          strOfValue ((r.lookup c).getD Value.na)⟩
    else coerceRowNum rest r

/-- Body of the `/predict` handler (the code inside its `try`). -/
def predictSingleBody (st : ServerState) (input_data : Row) :
    Except PyExc PredictionResponse :=
  match st.feature_columns with
  | none => Except.error (PyExc.other "argument of type 'NoneType' is not iterable")
  | some feats =>
    let missing := missingCols feats (rowKeys input_data)
    if missing ≠ [] then
      Except.error (PyExc.http ⟨400, "Missing required columns: [" ++ joinComma missing ++
        "]. Please ensure your input includes all required fields: [" ++ joinComma feats ++ "]"⟩)
    else
      let df_input := rowSelect feats input_data
      match coerceRowNum (st.numerical_columns.getD []) df_input with
      | Except.error e => Except.error (PyExc.http e)
      | Except.ok row =>
        match st.pipeline with
        | none => Except.error (PyExc.other "'NoneType' object has no attribute 'predict'")
        | some P =>
          match P row with
          | Except.error m => Except.error (PyExc.other m)
          | Except.ok pr => Except.ok ⟨pr.1, pr.2⟩

/-- The `/predict` endpoint: the not-trained guard sits before the `try`;
the body's exceptions go through `wrapHTTP`.  The handler assigns no
global, so the state is returned unchanged. -/
def predict_single (st : ServerState) (input_data : Row) :
    Except HTTPError PredictionResponse × ServerState :=
  if st.pipeline.isNone then
    (Except.error ⟨400,
      "Model not trained yet. Please train the model first using the /train endpoint."⟩, st)
  else
    (wrapHTTP "Prediction error: " (predictSingleBody st input_data), st)

/-- Number of rows of a dataframe (length of its first column). -/
def Df.nrows (df : Df) : Nat :=
  (df.cols.head?.map (fun c => c.values.length)).getD 0

/-- A dataframe is rectangular: every column has `nrows` values. -/
def Df.wf (df : Df) : Prop :=
  ∀ c ∈ df.cols, c.values.length = df.nrows

/-- Row `i` of a dataframe, as an association list. -/
def Df.row (df : Df) (i : Nat) : Row :=
  df.cols.map (fun c => (c.name, c.values.getD i Value.na))

/-- All rows of a dataframe, in order. -/
def Df.rows (df : Df) : List Row :=
  (List.range df.nrows).map df.row

/-- Column assignment `df[n] = vs` in pandas: overwrite in place when a
column named `n` exists, otherwise append a new last column. -/
def Df.setCol (df : Df) (n : String) (dt : Dtype) (vs : List Value) : Df :=
  if df.names.contains n then
    ⟨df.cols.map (fun c => if c.name = n then ⟨n, dt, vs⟩ else c)⟩
  else
    ⟨df.cols ++ [⟨n, dt, vs⟩]⟩

/-- `pd.to_numeric(errors='raise')` over a whole column. -/
def coerceColVals : List Value → Option (List Value)
  | [] => some []
  | v :: vs =>
    match to_numericVal v with
    | none => none
    | some v2 =>
      match coerceColVals vs with
      | none => none
      | some vs2 => some (v2 :: vs2)

/-- `pipeline.predict` / `predict_proba` over the feature rows of a batch:
the per-row black box applied to each row in order, first raise wins. -/
def mapRows (P : PipelineFn) : List Row → Except String (List (Int × ℚ))
  | [] => Except.ok []
  | row :: rows =>
    match P row with
    | Except.error m => Except.error m
    | Except.ok pr =>
      match mapRows P rows with
      | Except.error m => Except.error m
      | Except.ok rs => Except.ok (pr :: rs)

/-- The numeric-coercion loop of `predict_batch`: each schema numerical
column of `df_features` is coerced wholesale; any non-numeric cell raises
the 400 error of that handler. -/
def coerceDfNum : List String → Df → Except HTTPError Df
  | [], df => Except.ok df
  | c :: rest, df =>
    if df.names.contains c then
      match df.cols.find? (fun col => col.name = c) with
      | some col =>
        match coerceColVals col.values with
        | some vs =>
          coerceDfNum rest
            ⟨df.cols.map (fun k => if k.name = c then ⟨c, Dtype.float64, vs⟩ else k)⟩
        | none =>
          Except.error ⟨400, "Column '" ++ c ++
            "' must contain only numeric values. Found non-numeric values in your CSV."⟩
      | none => coerceDfNum rest df
    else coerceDfNum rest df

/-- Body of the `/predict-batch` handler (the code inside its `try`).
`fileParse` is the outcome of decoding the upload and `pd.read_csv`; a
parse failure is an ordinary exception.  The returned dataframe is
`df_out`, the frame serialised to the response CSV. -/
def predictBatchBody (st : ServerState) (fileParse : Except String Df) :
    Except PyExc Df :=
  match fileParse with
  | Except.error m => Except.error (PyExc.other m)
  | Except.ok df =>
    match st.feature_columns with
    | none => Except.error (PyExc.other "argument of type 'NoneType' is not iterable")
    | some feats =>
      let missing := missingCols feats df.names
      if missing ≠ [] then
        Except.error (PyExc.http ⟨400, "CSV is missing required columns: [" ++
          joinComma missing ++ "]. Your CSV must include all required columns: [" ++
          joinComma feats ++ "]"⟩)
      else
        let df_features := df.select feats
        match coerceDfNum (st.numerical_columns.getD []) df_features with
        | Except.error e => Except.error (PyExc.http e)
        | Except.ok dff =>
          match st.pipeline with
          | none => Except.error (PyExc.other "'NoneType' object has no attribute 'predict'")
          | some P =>
            match mapRows P dff.rows with
            | Except.error m => Except.error (PyExc.other m)
            | Except.ok results =>
              let df_out :=
                (df.setCol "Prediction" Dtype.int64
                    (results.map (fun r => Value.num (r.1 : ℚ)))).setCol
                  "Probability" Dtype.float64 (results.map (fun r => Value.num r.2))
              Except.ok df_out

/-- The `/predict-batch` endpoint: not-trained and non-`.csv`-filename
guards sit before the `try`; the body's exceptions go through `wrapHTTP`.
No global is assigned (the coercion writes into the local `df_features`),
so the state is returned unchanged. -/
def predict_batch (st : ServerState) (filename : String) (fileParse : Except String Df) :
    Except HTTPError Df × ServerState :=
  if st.pipeline.isNone then
    (Except.error ⟨400,
      "Model not trained yet. Please train the model first using the /train endpoint."⟩, st)
  else if !pyEndsWith filename ".csv" then
    (Except.error ⟨400, "File must be a CSV file. Please upload a .csv file."⟩, st)
  else
    (wrapHTTP "Batch prediction error: " (predictBatchBody st fileParse), st)

/-- One field of the `/schema` response: categorical fields carry their
value list, numeric fields none. -/
structure SchemaField where
  name : String
  type : String
  values : Option (List String)
deriving DecidableEq, Repr

/-- The `/schema` response body. -/
structure SchemaResponse where
  target : Option String
  fields : List SchemaField
deriving DecidableEq, Repr

/-- The field-building loop of `get_schema`: a feature column listed among
the categorical columns gets type `categorical` with
`(categorical_values or {}).get(col, [])`; every other feature column gets
type `number`. -/
def buildSchemaFields (feats catCols : List String)
    (catVals : List (String × List String)) : List SchemaField :=
  feats.map (fun col =>
    if catCols.contains col then
      ⟨col, "categorical", some ((catVals.lookup col).getD [])⟩
    else
      ⟨col, "number", none⟩)

/-- The `/schema` endpoint.  `disk` is the state of `model/model.joblib`:
absent, unreadable (load raises), or a readable blob.  When the in-memory
schema is unset the handler loads the blob and assigns the five schema
globals — the only mutation outside `/train`. -/
def get_schema (st : ServerState) (disk : Option (Except String ModelData)) :
    Except HTTPError SchemaResponse × ServerState :=
  match st.feature_columns with
  | some feats =>
    (Except.ok ⟨st.target_column,
      buildSchemaFields feats (st.categorical_columns.getD []) (st.categorical_values.getD [])⟩, st)
  | none =>
    match disk with
    | none => (Except.error ⟨400, "Schema not available. Train the model first."⟩, st)
    | some (Except.error e) => (Except.error ⟨500, "Unable to load schema: " ++ e⟩, st)
    | some (Except.ok md) =>
      let st2 := { st with
        feature_columns := some md.feature_columns,
        target_column := some md.target_column,
        categorical_columns := some md.categorical_columns,
        numerical_columns := some md.numerical_columns,
        categorical_values := some md.categorical_values }
      (Except.ok ⟨st2.target_column,
        buildSchemaFields md.feature_columns (st2.categorical_columns.getD [])
          (st2.categorical_values.getD [])⟩, st2)

/-- The `/` endpoint: a constant message, no state access. -/
def root_endpoint (st : ServerState) : (String × String) × ServerState :=
  (("Churn Analysis API is running", "healthy"), st)

/-- The `/health` endpoint: reads whether the pipeline is loaded. -/
def health_check (st : ServerState) : (String × Bool) × ServerState :=
  (("healthy", st.pipeline.isSome), st)

/-- The `/model-info` response. -/
inductive ModelInfo where
  | notTrained
  | info (target : Option String) (feats cats nums : Option (List String)) (modelType : String)

/-- The `/model-info` endpoint: reads the globals, mutates nothing. -/
def get_model_info (st : ServerState) : ModelInfo × ServerState :=
  (if st.pipeline.isNone then ModelInfo.notTrained
   else ModelInfo.info st.target_column st.feature_columns st.categorical_columns
      st.numerical_columns "LogisticRegression", st)

/-- Ordered insertion into a sorted string list. -/
def insertStr (a : String) : List String → List String
  | [] => [a]
  | b :: rest => if strLe a b then a :: b :: rest else b :: insertStr a rest

/-- Python `sorted` on a string list (insertion sort, ascending). -/
def sortStrs : List String → List String
  | [] => []
  | a :: rest => insertStr a (sortStrs rest)

/-- `sorted([str(v) for v in pd.Series(df[c]).dropna().unique()])` for one
column name. -/
def columnDistinctStrs (df : Df) (c : String) : List String :=
  match df.cols.find? (fun k => k.name = c) with
  | some col =>
    sortStrs (((col.values.filter (fun v => v ≠ Value.na)).dedup).map strOfValue)
  | none => []

/-- One entry of the `/train` metrics dict: a plain score or the nested
confusion-matrix dict. -/
inductive MetricValue where
  | num (q : ℚ)
  | cmat (true_negatives false_positives false_negatives true_positives : Int)
deriving DecidableEq, Repr

/-- Response model of `/train`. -/
structure TrainingResponse where
  message : String
  metrics : List (String × MetricValue)
  target_column : String
  feature_columns : List String
  categorical_columns : List String
  numerical_columns : List String

/-- Side effects of the `/train` handler, in program order. -/
inductive TrainEvent where
  | save (path : String) (data : ModelData)
  | respond (r : TrainingResponse)

/-- The external ML calls of `/train`, black boxes per the spec:
whether the fixed CSV exists and what it parses to, the fitted pipeline,
exception messages (if any) of `train_test_split` and of
fit/predict/metrics, and the test-set metric values. -/
structure TrainOracle where
  dataExists : Bool
  df : Df
  splitError : Option String
  mlError : Option String
  fitted : PipelineFn
  accuracy : ℚ
  precision : ℚ
  recallScore : ℚ
  f1 : ℚ
  roc_auc : ℚ
  tn : Int
  fp : Int
  fn : Int
  tp : Int

/-- Body of the `/train` handler (the code inside its `try`), threading
the global assignments it performs in program order: `target_column`,
`feature_columns`, the detected column lists and `categorical_values` are
assigned before the split/fit calls that may still raise; `pipeline` is
assigned by `create_pipeline` (which raises when there is no feature at
all); `model` and the `joblib.dump` happen only on full success. -/
def trainBody (o : TrainOracle) (st : ServerState) (target : Option String) :
    Except PyExc TrainingResponse × ServerState × List TrainEvent :=
  if !o.dataExists then
    (Except.error (PyExc.http ⟨404,
      "Data file not found. Please ensure data/Churn_Modelling.csv exists."⟩), st, [])
  else
    let df := o.df
    match detect_target_column df.names target with
    | Except.error m => (Except.error (PyExc.other m), st, [])
    | Except.ok tc =>
      let st1 := { st with target_column := some tc }
      let fc := df.names.filter (fun c => c ≠ tc && !pyEndsWith (pyLower c) "id")
      let st2 := { st1 with feature_columns := some fc }
      let (nums, cats) := detect_column_types (df.select fc).cols
      let st3 := { st2 with numerical_columns := some nums, categorical_columns := some cats }
      let catVals := cats.map (fun c => (c, columnDistinctStrs df c))
      let st4 := { st3 with categorical_values := some catVals }
      match o.splitError with
      | some m => (Except.error (PyExc.other m), st4, [])
      | none =>
        if cats = [] && nums = [] then
          (Except.error (PyExc.other "No features found for preprocessing"), st4, [])
        else
          let st5 := { st4 with pipeline := some o.fitted }
          match o.mlError with
          | some m => (Except.error (PyExc.other m), st5, [])
          | none =>
            let metrics : List (String × MetricValue) :=
              [("accuracy", MetricValue.num o.accuracy),
               ("precision", MetricValue.num o.precision),
               ("recall", MetricValue.num o.recallScore),
               ("f1_score", MetricValue.num o.f1),
               ("roc_auc", MetricValue.num o.roc_auc),
               ("confusion_matrix", MetricValue.cmat o.tn o.fp o.fn o.tp)]
            let md : ModelData := ⟨o.fitted, fc, tc, cats, nums, catVals⟩
            let st6 := { st5 with model := some o.fitted }
            let resp : TrainingResponse := ⟨"Model trained successfully", metrics, tc, fc, cats, nums⟩
            (Except.ok resp, st6,
              [TrainEvent.save "model/model.joblib" md, TrainEvent.respond resp])

/-- The `/train` endpoint: `trainBody` under the generic
exception-to-HTTP mapping. -/
def train_model (o : TrainOracle) (st : ServerState) (target : Option String) :
    Except HTTPError TrainingResponse × ServerState × List TrainEvent :=
  let r := trainBody o st target
  (wrapHTTP "Training error: " r.1, r.2.1, r.2.2)

/-- A sample fitted pipeline used as the black box in concrete runs. -/
def pipeFnW : PipelineFn := fun _ => Except.ok (1, (1 : ℚ)/2)

/-- Sample columns for concrete runs of the schema detector. -/
def colsW : List Col :=
  [⟨"HasCrCard", Dtype.int64, [Value.num 0, Value.num 1]⟩,
   ⟨"Balance", Dtype.float64, [Value.num 5, Value.num 6]⟩,
   ⟨"Geography", Dtype.object, [Value.str "France", Value.str "Spain"]⟩]

/-- A trained server state with features `Age` (numerical) and
`Geography` (categorical). -/
def stW : ServerState :=
  { model := some pipeFnW, pipeline := some pipeFnW,
    feature_columns := some ["Age", "Geography"],
    target_column := some "Churn",
    categorical_columns := some ["Geography"],
    numerical_columns := some ["Age"],
    categorical_values := some [("Geography", ["France", "Spain"])] }

/-- A trained server state with the single numerical feature `Age`. -/
def stOne : ServerState :=
  { model := some pipeFnW, pipeline := some pipeFnW,
    feature_columns := some ["Age"],
    target_column := some "Churn",
    categorical_columns := some [],
    numerical_columns := some ["Age"],
    categorical_values := some [] }

/-- The fresh server state (all globals `None`). -/
def stEmpty : ServerState :=
  { model := none, pipeline := none, feature_columns := none, target_column := none,
    categorical_columns := none, numerical_columns := none, categorical_values := none }

/-- A sample persisted blob, used to exercise the `/schema` disk load. -/
def mdW : ModelData :=
  ⟨pipeFnW, ["Age", "Geography"], "Churn", ["Geography"], ["Age"],
   [("Geography", ["France", "Spain"])]⟩

/-- A sample batch-CSV dataframe matching `stW`, with an extra column. -/
def dfIn : Df :=
  ⟨[⟨"Age", Dtype.float64, [Value.num 30, Value.num 40]⟩,
    ⟨"Geography", Dtype.object, [Value.str "France", Value.str "Spain"]⟩,
    ⟨"Extra", Dtype.object, [Value.str "x", Value.str "y"]⟩]⟩

/-- A sample batch-CSV dataframe matching `stOne` that already carries a
column named `Prediction`. -/
def dfPred : Df :=
  ⟨[⟨"Age", Dtype.float64, [Value.num 30]⟩,
    ⟨"Prediction", Dtype.object, [Value.str "old"]⟩]⟩

/-- A sample training oracle over a four-column dataset. -/
def oW : TrainOracle :=
  { dataExists := true,
    df := ⟨[⟨"CustomerId", Dtype.int64, [Value.num 1, Value.num 2]⟩,
            ⟨"Age", Dtype.float64, [Value.num 30, Value.num 40]⟩,
            ⟨"Geography", Dtype.object, [Value.str "Spain", Value.str "France"]⟩,
            ⟨"Churn", Dtype.int64, [Value.num 0, Value.num 1]⟩]⟩,
    splitError := none, mlError := none, fitted := pipeFnW,
    accuracy := 1, precision := 1, recallScore := 1, f1 := 1, roc_auc := 1,
    tn := 1, fp := 0, fn := 0, tp := 1 }

theorem detect_column_types_eq_filter (cols : List Col) :
    detect_column_types cols =
      ((cols.filter (fun c => isNumericalCol c)).map Col.name,
       (cols.filter (fun c => !isNumericalCol c)).map Col.name) := by
  induction cols with
  | nil => rfl
  | cons c rest ih =>
    unfold detect_column_types
    rw [ih]
    cases h1 : is_numeric_dtype c
    case false =>
      have hp : isNumericalCol c = false := by simp [isNumericalCol, h1]
      simp [List.filter_cons, hp]
    case true =>
      cases h2 : (is_integer_dtype c && decide (nunique c ≤ 10))
      case true =>
        have hp : isNumericalCol c = false := by simp [isNumericalCol, h1, h2]
        simp [List.filter_cons, hp]
      case false =>
        have hp : isNumericalCol c = true := by simp [isNumericalCol, h1, h2]
        simp [List.filter_cons, hp]

/-- C2: `detect_column_types` classifies a numeric-dtype column as
numerical unless it is an integer column with at most 10 distinct
non-null values (then categorical), and every non-numeric-dtype column as
categorical. -/
theorem claim_C2 (cols : List Col) :
    (detect_column_types cols).1 =
      (cols.filter (fun c =>
        is_numeric_dtype c && !(is_integer_dtype c && nunique c ≤ 10))).map Col.name ∧
    (detect_column_types cols).2 =
      (cols.filter (fun c =>
        !(is_numeric_dtype c && !(is_integer_dtype c && nunique c ≤ 10)))).map Col.name := by
  rw [detect_column_types_eq_filter]
  exact ⟨rfl, rfl⟩

/-- C9: on a dataframe with distinct column names, `detect_column_types`
partitions the columns: each name lands in exactly one of the two lists,
the lists are disjoint, together they cover all columns, and each list
preserves the dataframe's column order (is a sublist of the names). -/
theorem claim_C9 (cols : List Col) (h : (cols.map Col.name).Nodup) :
    (∀ n, n ∈ cols.map Col.name ↔
      (n ∈ (detect_column_types cols).1 ∨ n ∈ (detect_column_types cols).2)) ∧
    (∀ n, ¬(n ∈ (detect_column_types cols).1 ∧ n ∈ (detect_column_types cols).2)) ∧
    (detect_column_types cols).1.Sublist (cols.map Col.name) ∧
    (detect_column_types cols).2.Sublist (cols.map Col.name) ∧
    (detect_column_types cols).1.length + (detect_column_types cols).2.length = cols.length := by
  rw [detect_column_types_eq_filter]
  refine ⟨?_, ?_, ?_, ?_, ?_⟩
  · intro n
    simp only [List.mem_map, List.mem_filter]
    constructor
    · rintro ⟨c, hc, rfl⟩
      cases hp : isNumericalCol c
      · exact Or.inr ⟨c, ⟨hc, by simp [hp]⟩, rfl⟩
      · exact Or.inl ⟨c, ⟨hc, hp⟩, rfl⟩
    · rintro (⟨c, ⟨hc, _⟩, rfl⟩ | ⟨c, ⟨hc, _⟩, rfl⟩) <;> exact ⟨c, hc, rfl⟩
  · rintro n ⟨h1, h2⟩
    simp only [List.mem_map, List.mem_filter] at h1 h2
    obtain ⟨c1, ⟨hc1, hp1⟩, hn1⟩ := h1
    obtain ⟨c2, ⟨hc2, hp2⟩, hn2⟩ := h2
    have : c1 = c2 := List.inj_on_of_nodup_map h hc1 hc2 (hn1.trans hn2.symm)
    subst this
    rw [hp1] at hp2
    simp at hp2
  · exact (List.filter_sublist cols).map Col.name
  · exact (List.filter_sublist cols).map Col.name
  · rw [List.length_map, List.length_map]
    exact (List.length_eq_length_filter_add (fun c => isNumericalCol c)).symm

/-- C3 counterexample: with the explicit target parameter `""` (given,
but empty) and a dataframe whose columns are `["Churn"]`, the parameter
is absent from the columns, yet `detect_target_column` raises no error:
`if target_param:` is falsy on the empty string, so the code falls back
to the candidate search and returns `"Churn"`. -/
theorem claim_C3_counterexample :
    detect_target_column ["Churn"] (some "") = Except.ok "Churn" ∧
      ("" ∈ (["Churn"] : List String)) = False := by
  exact ⟨rfl, by decide⟩

/-- C3 amended: with an explicit non-empty target parameter, that column
is returned when present and an error raised when absent; an explicit
empty-string parameter behaves as if no parameter were given; with no
parameter, the first of `"Churn"`, `"Exited"`, `"churn"`, `"target"`
present among the columns is returned, and an error is raised iff none of
them is present. -/
theorem claim_C3 (cols : List String) (t : String) (ht : t ≠ "") :
    (detect_target_column cols (some t) =
      (if t ∈ cols then Except.ok t
       else Except.error ("Target column '" ++ t ++ "' not found in dataset"))) ∧
    (detect_target_column cols (some "") = detect_target_column cols none) ∧
    ("Churn" ∈ cols → detect_target_column cols none = Except.ok "Churn") ∧
    ("Churn" ∉ cols → "Exited" ∈ cols →
      detect_target_column cols none = Except.ok "Exited") ∧
    ("Churn" ∉ cols → "Exited" ∉ cols → "churn" ∈ cols →
      detect_target_column cols none = Except.ok "churn") ∧
    ("Churn" ∉ cols → "Exited" ∉ cols → "churn" ∉ cols → "target" ∈ cols →
      detect_target_column cols none = Except.ok "target") ∧
    ("Churn" ∉ cols → "Exited" ∉ cols → "churn" ∉ cols → "target" ∉ cols →
      detect_target_column cols none =
        Except.error "No target column found. Please specify with ?target= parameter") := by
  have htr : pyTruthy (some t) = true := by simp [pyTruthy, ht]
  refine ⟨?_, ?_, ?_, ?_, ?_, ?_, ?_⟩
  · by_cases hm : t ∈ cols <;> simp [detect_target_column, htr, List.elem_iff, hm]
  · simp [detect_target_column, pyTruthy]
  · intro h1
    simp [detect_target_column, pyTruthy, findCandidateTarget, List.find?_cons,
      List.elem_iff, h1]
  · intro h1 h2
    simp [detect_target_column, pyTruthy, findCandidateTarget, List.find?_cons,
      List.elem_iff, h1, h2]
  · intro h1 h2 h3
    simp [detect_target_column, pyTruthy, findCandidateTarget, List.find?_cons,
      List.elem_iff, h1, h2, h3]
  · intro h1 h2 h3 h4
    simp [detect_target_column, pyTruthy, findCandidateTarget, List.find?_cons,
      List.elem_iff, h1, h2, h3, h4]
  · intro h1 h2 h3 h4
    simp [detect_target_column, pyTruthy, findCandidateTarget, List.find?_cons,
      List.elem_iff, h1, h2, h3, h4]

/-- C3 witness: the amended claim evaluated at columns `["Exited"]`, with
the absent non-empty parameter `"x"` and with no parameter. -/
theorem claim_C3_witness :
    (detect_target_column ["Exited"] (some "x") =
      (if ("x" : String) ∈ (["Exited"] : List String) then Except.ok "x"
       else Except.error ("Target column '" ++ "x" ++ "' not found in dataset"))) ∧
    detect_target_column ["Exited"] none = Except.ok "Exited" :=
  ⟨(claim_C3 ["Exited"] "x" (by decide)).1,
   (claim_C3 ["Exited"] "x" (by decide)).2.2.2.1 (by decide) (by decide)⟩

/-- C9 witness: the partition properties evaluated on the sample columns
(integer low-cardinality, float, object). -/
theorem claim_C9_witness :
    (colsW.map Col.name).Nodup ∧
    (detect_column_types colsW).1.length + (detect_column_types colsW).2.length =
      colsW.length :=
  ⟨by decide, (claim_C9 colsW (by decide)).2.2.2.2⟩

theorem contains_eq_decide_mem (l : List String) (c : String) :
    l.contains c = decide (c ∈ l) := by
  cases h : decide (c ∈ l)
  · cases hc : l.contains c
    · rfl
    · exact absurd (List.elem_iff.mp hc) (of_decide_eq_false h)
  · exact List.elem_iff.mpr (of_decide_eq_true h)

theorem lookup_eq_none_of_not_mem_keys (r : Row) (n : String)
    (h : n ∉ r.map Prod.fst) : r.lookup n = none := by
  induction r with
  | nil => rfl
  | cons p rest ih =>
    simp only [List.map_cons, List.mem_cons, not_or] at h
    cases p with
    | mk k v =>
      simp only [List.lookup]
      have hk : (n == k) = false := by simp [h.1]
      rw [hk]
      exact ih h.2

theorem lookup_append_right_none (r s : Row) (n : String)
    (h : s.lookup n = none) : (r ++ s).lookup n = r.lookup n := by
  induction r with
  | nil => simpa using h
  | cons p rest ih =>
    cases p with
    | mk k v =>
      simp only [List.cons_append, List.lookup]
      cases n == k
      · simpa using ih
      · rfl

theorem missingCols_append (feats n1 n2 : List String)
    (hx : ∀ n ∈ n2, n ∉ feats) :
    missingCols feats (n1 ++ n2) = missingCols feats n1 := by
  unfold missingCols
  apply List.filter_congr
  intro c hc
  have hne : c ∉ n2 := fun hmem => hx c hmem hc
  rw [contains_eq_decide_mem, contains_eq_decide_mem]
  simp [List.mem_append, hne]

theorem rowSelect_append_extras (feats : List String) (input extras : Row)
    (hx : ∀ p ∈ extras, p.1 ∉ feats) :
    rowSelect feats (input ++ extras) = rowSelect feats input := by
  unfold rowSelect
  apply List.map_eq_map_iff.mpr
  intro n hn
  have hkeys : n ∉ extras.map Prod.fst := by
    intro hmem
    obtain ⟨p, hp, hpe⟩ := List.mem_map.mp hmem
    exact hx p hp (hpe ▸ hn)
  rw [lookup_append_right_none _ _ _ (lookup_eq_none_of_not_mem_keys extras n hkeys)]

theorem filterMap_congr_mem {α β : Type} (l : List α) (f g : α → Option β)
    (h : ∀ a ∈ l, f a = g a) : l.filterMap f = l.filterMap g := by
  induction l with
  | nil => rfl
  | cons a rest ih =>
    rw [List.filterMap_cons, List.filterMap_cons, h a (List.mem_cons_self a rest),
      ih (fun b hb => h b (List.mem_cons_of_mem a hb))]

theorem select_append_extras (df : Df) (extras : List Col) (feats : List String)
    (hx : ∀ c ∈ extras, c.name ∉ feats) :
    Df.select ⟨df.cols ++ extras⟩ feats = df.select feats := by
  unfold Df.select
  congr 1
  apply filterMap_congr_mem
  intro n hn
  rw [List.find?_append]
  have hz : extras.find? (fun c => c.name = n) = none :=
    List.find?_eq_none.mpr (fun c hc => by
      simp only [decide_eq_true_eq]
      intro heq
      exact hx c hc (heq ▸ hn))
  rw [hz, Option.or_none]

theorem predictSingleBody_extras (st : ServerState) (feats : List String)
    (h : st.feature_columns = some feats) (input extras : Row)
    (hx : ∀ p ∈ extras, p.1 ∉ feats) :
    predictSingleBody st (input ++ extras) = predictSingleBody st input := by
  unfold predictSingleBody
  simp only [h]
  rw [rowKeys, List.map_append, missingCols_append feats _ _
    (fun n hn => by
      obtain ⟨p, hp, hpe⟩ := List.mem_map.mp hn
      exact hpe ▸ hx p hp),
    rowSelect_append_extras feats input extras hx]
  rfl

theorem predictBatchBody_extras_error (st : ServerState) (feats : List String)
    (h : st.feature_columns = some feats) (df : Df) (extras : List Col)
    (hx : ∀ c ∈ extras, c.name ∉ feats) (pe : PyExc) :
    predictBatchBody st (Except.ok ⟨df.cols ++ extras⟩) = Except.error pe ↔
    predictBatchBody st (Except.ok df) = Except.error pe := by
  unfold predictBatchBody
  simp only [h]
  have hnames : Df.names ⟨df.cols ++ extras⟩ = df.names ++ extras.map Col.name := by
    simp [Df.names]
  rw [hnames, missingCols_append feats _ _ (fun n hn => by
      obtain ⟨c, hc, hce⟩ := List.mem_map.mp hn
      exact hce ▸ hx c hc),
    select_append_extras df extras feats hx]
  by_cases hm : missingCols feats df.names ≠ []
  · simp [hm]
  · rw [if_neg hm, if_neg hm]
    split
    next e heq => exact Iff.rfl
    next dff heq =>
      split
      next hnone => exact Iff.rfl
      next P hsome =>
        split
        next m hs2 => exact Iff.rfl
        next rs hs2 => simp

theorem wrapHTTP_error_congr {α : Type} (m : String) (b1 b2 : Except PyExc α)
    (hb : ∀ pe, b1 = Except.error pe ↔ b2 = Except.error pe) (ex : HTTPError) :
    (wrapHTTP m b1 = Except.error ex ↔ wrapHTTP m b2 = Except.error ex) := by
  cases b1 with
  | ok a1 =>
    cases b2 with
    | ok a2 => simp [wrapHTTP]
    | error pe2 => exact absurd ((hb pe2).mpr rfl) (by simp)
  | error pe1 =>
    have h2 : b2 = Except.error pe1 := (hb pe1).mp rfl
    rw [h2]

/-- C1 counterexample: with the trained schema of `stW` (features `Age`,
`Geography`), a `/predict` request whose JSON record lacks the feature
column `Age` IS rejected: the handler raises HTTP 400 for exactly that
reason, contradicting the claim that missing columns are tolerated. -/
theorem claim_C1_counterexample :
    (predict_single stW [("Geography", Value.str "France")]).1 =
      Except.error ⟨400, "Missing required columns: [Age]. Please ensure your input includes all required fields: [Age, Geography]"⟩ := by
  rfl

/-- C1 amended: extra columns are tolerated on both endpoints — appending
columns whose names are outside the schema changes neither `/predict`'s
response nor `/predict-batch`'s acceptance — but rows lacking a schema
feature column are rejected with an HTTP 400 missing-columns error, on
both endpoints. -/
theorem claim_C1 (st : ServerState) (feats : List String)
    (h : st.feature_columns = some feats) :
    (∀ input extras : Row, (∀ p ∈ extras, p.1 ∉ feats) →
      (predict_single st (input ++ extras)).1 = (predict_single st input).1) ∧
    (∀ input : Row, st.pipeline.isSome → (∃ c ∈ feats, c ∉ rowKeys input) →
      (predict_single st input).1 =
        Except.error ⟨400, "Missing required columns: [" ++
          joinComma (missingCols feats (rowKeys input)) ++
          "]. Please ensure your input includes all required fields: [" ++
          joinComma feats ++ "]"⟩) ∧
    (∀ (fname : String) (df : Df) (extras : List Col), (∀ c ∈ extras, c.name ∉ feats) →
      ∀ ex : HTTPError,
        ((predict_batch st fname (Except.ok ⟨df.cols ++ extras⟩)).1 = Except.error ex ↔
         (predict_batch st fname (Except.ok df)).1 = Except.error ex)) ∧
    (∀ (fname : String) (df : Df), st.pipeline.isSome → pyEndsWith fname ".csv" →
      (∃ c ∈ feats, c ∉ df.names) →
      (predict_batch st fname (Except.ok df)).1 =
        Except.error ⟨400, "CSV is missing required columns: [" ++
          joinComma (missingCols feats df.names) ++
          "]. Your CSV must include all required columns: [" ++
          joinComma feats ++ "]"⟩) := by
  refine ⟨?_, ?_, ?_, ?_⟩
  · intro input extras hx
    cases hsp : st.pipeline with
    | none => simp [predict_single, hsp]
    | some P =>
      simp only [predict_single, hsp, Option.isNone_some, Bool.false_eq_true, if_false]
      rw [predictSingleBody_extras st feats h input extras hx]
  · intro input hps hex
    obtain ⟨c, hcf, hcm⟩ := hex
    cases hsp : st.pipeline with
    | none => rw [hsp] at hps; simp at hps
    | some P =>
      have hmem : c ∈ missingCols feats (rowKeys input) :=
        List.mem_filter.mpr ⟨hcf, by rw [contains_eq_decide_mem]; simpa using hcm⟩
      have hne : missingCols feats (rowKeys input) ≠ [] := List.ne_nil_of_mem hmem
      simp only [predict_single, hsp, Option.isNone_some, Bool.false_eq_true, if_false]
      unfold predictSingleBody
      simp only [h]
      rw [if_pos hne]
      rfl
  · intro fname df extras hx ex
    cases hsp : st.pipeline with
    | none => simp [predict_batch, hsp]
    | some P =>
      by_cases hcsv : pyEndsWith fname ".csv"
      · simp only [predict_batch, hsp, Option.isNone_some, Bool.false_eq_true, if_false,
          hcsv, Bool.not_true]
        exact wrapHTTP_error_congr _ _ _
          (predictBatchBody_extras_error st feats h df extras hx) ex
      · have hb : pyEndsWith fname ".csv" = false := Bool.eq_false_iff.mpr hcsv
        simp [predict_batch, hsp, hb]
  · intro fname df hps hcsv hex
    obtain ⟨c, hcf, hcm⟩ := hex
    cases hsp : st.pipeline with
    | none => rw [hsp] at hps; simp at hps
    | some P =>
      have hmem : c ∈ missingCols feats df.names :=
        List.mem_filter.mpr ⟨hcf, by rw [contains_eq_decide_mem]; simpa using hcm⟩
      have hne : missingCols feats df.names ≠ [] := List.ne_nil_of_mem hmem
      simp only [predict_batch, hsp, Option.isNone_some, Bool.false_eq_true, if_false,
        hcsv, Bool.not_true]
      unfold predictBatchBody
      simp only [h]
      rw [if_pos hne]
      rfl

/-- C1 witness: the amended claim exercised on `stW`: an extra column is
ignored on `/predict`, and a batch CSV lacking `Geography` is rejected
with the 400 missing-columns error. -/
theorem claim_C1_witness :
    (predict_single stW ([("Age", Value.num 30), ("Geography", Value.str "France")] ++
        [("Extra", Value.str "x")])).1 =
      (predict_single stW [("Age", Value.num 30), ("Geography", Value.str "France")]).1 ∧
    (predict_batch stW "f.csv"
        (Except.ok ⟨[⟨"Age", Dtype.float64, [Value.num 30]⟩]⟩)).1 =
      Except.error ⟨400, "CSV is missing required columns: [" ++
        joinComma (missingCols ["Age", "Geography"]
          (Df.names ⟨[⟨"Age", Dtype.float64, [Value.num 30]⟩]⟩)) ++
        "]. Your CSV must include all required columns: [" ++
        joinComma ["Age", "Geography"] ++ "]"⟩ :=
  ⟨(claim_C1 stW ["Age", "Geography"] rfl).1
      [("Age", Value.num 30), ("Geography", Value.str "France")]
      [("Extra", Value.str "x")] (by decide),
   (claim_C1 stW ["Age", "Geography"] rfl).2.2.2 "f.csv"
      ⟨[⟨"Age", Dtype.float64, [Value.num 30]⟩]⟩ (by decide) (by decide)
      ⟨"Geography", by decide, by decide⟩⟩

theorem rowKeys_rowSelect (feats : List String) (r : Row) :
    rowKeys (rowSelect feats r) = feats := by
  unfold rowKeys rowSelect
  induction feats with
  | nil => rfl
  | cons n rest ih => simp_all

theorem lookup_rowSelect (feats : List String) (r : Row) (c : String) (h : c ∈ feats) :
    (rowSelect feats r).lookup c = some ((r.lookup c).getD Value.na) := by
  induction feats with
  | nil => cases h
  | cons n rest ih =>
    rw [rowSelect, List.map_cons, List.lookup]
    by_cases hc : c = n
    · subst hc
      simp
    · have hk : (c == n) = false := by simp [hc]
      rw [hk]
      exact ih ((List.mem_cons.mp h).resolve_left hc)

theorem rowKeys_setRowVal (r : Row) (n : String) (v : Value) :
    rowKeys (setRowVal r n v) = rowKeys r := by
  unfold rowKeys setRowVal
  rw [List.map_map]
  apply List.map_eq_map_iff.mpr
  intro p _
  by_cases hp : p.fst = n <;> simp [hp]

theorem lookup_setRowVal_ne (r : Row) (n c : String) (v : Value) (h : c ≠ n) :
    (setRowVal r n v).lookup c = r.lookup c := by
  induction r with
  | nil => rfl
  | cons p rest ih =>
    obtain ⟨k, w⟩ := p
    show List.lookup c ((if k = n then (k, v) else (k, w)) :: setRowVal rest n v) =
      List.lookup c ((k, w) :: rest)
    by_cases hk : k = n
    · rw [if_pos hk]
      have hck : (c == k) = false := by
        simp [show c ≠ k from fun hc => h (hc.trans hk)]
      rw [List.lookup, List.lookup, hck]
      exact ih
    · rw [if_neg hk]
      rw [List.lookup, List.lookup]
      cases c == k
      · exact ih
      · rfl

theorem lookup_setRowVal_mem (r : Row) (c : String) (v : Value) (h : c ∈ rowKeys r) :
    (setRowVal r c v).lookup c = some v := by
  induction r with
  | nil => cases h
  | cons p rest ih =>
    obtain ⟨k, w⟩ := p
    show List.lookup c ((if k = c then (k, v) else (k, w)) :: setRowVal rest c v) = some v
    by_cases hk : k = c
    · rw [if_pos hk]
      subst hk
      simp [List.lookup]
    · rw [if_neg hk]
      rw [List.lookup]
      have hck : (c == k) = false := by
        simp [show c ≠ k from fun hc => hk hc.symm]
      rw [hck]
      simp only [rowKeys, List.map_cons, List.mem_cons] at h
      exact ih (h.resolve_left (fun hc => hk hc.symm))

theorem coerceRowNum_fails (nums : List String) (r : Row)
    (hex : ∃ c ∈ nums, c ∈ rowKeys r ∧ to_numericVal ((r.lookup c).getD Value.na) = none) :
    ∃ e, coerceRowNum nums r = Except.error e ∧ e.status = 400 := by
  induction nums generalizing r with
  | nil =>
    obtain ⟨c, hc, _⟩ := hex
    cases hc
  | cons c₀ rest ih =>
    obtain ⟨c, hcmem, hck, hcv⟩ := hex
    by_cases hk0 : c₀ ∈ rowKeys r
    · have hb : ((rowKeys r).contains c₀) = true := by
        rw [contains_eq_decide_mem]; simpa
      cases hv : to_numericVal ((r.lookup c₀).getD Value.na) with
      | none =>
        refine ⟨⟨400, "Column '" ++ c₀ ++ "' must be numeric. Received: " ++
          strOfValue ((r.lookup c₀).getD Value.na)⟩, ?_, rfl⟩
        simp only [coerceRowNum]
        rw [if_pos hb]
        simp only [hv]
      | some v' =>
        by_cases hc0 : c = c₀
        · subst hc0
          rw [hv] at hcv
          cases hcv
        · have step : coerceRowNum (c₀ :: rest) r = coerceRowNum rest (setRowVal r c₀ v') := by
            simp only [coerceRowNum]
            rw [if_pos hb]
            simp only [hv]
          rw [step]
          apply ih
          refine ⟨c, (List.mem_cons.mp hcmem).resolve_left hc0, ?_, ?_⟩
          · rw [rowKeys_setRowVal]; exact hck
          · rw [lookup_setRowVal_ne r c₀ c v' hc0]; exact hcv
    · have hb : ((rowKeys r).contains c₀) = false := by
        rw [contains_eq_decide_mem]; simpa
      have step : coerceRowNum (c₀ :: rest) r = coerceRowNum rest r := by
        simp only [coerceRowNum]
        rw [if_neg (by rw [hb]; simp)]
      rw [step]
      apply ih
      have hc0 : c ≠ c₀ := fun he => hk0 (he ▸ hck)
      exact ⟨c, (List.mem_cons.mp hcmem).resolve_left hc0, hck, hcv⟩

theorem coerceRowNum_ok (nums : List String) (r' : Row) :
    ∀ r : Row, coerceRowNum nums r = Except.ok r' →
      ∀ c ∈ nums, c ∈ rowKeys r → to_numericVal ((r.lookup c).getD Value.na) ≠ none := by
  induction nums with
  | nil =>
    intro r _ c hc
    cases hc
  | cons c₀ rest ih =>
    intro r hok c hcmem hck
    by_cases hk0 : c₀ ∈ rowKeys r
    · have hb : ((rowKeys r).contains c₀) = true := by
        rw [contains_eq_decide_mem]; simpa
      cases hv : to_numericVal ((r.lookup c₀).getD Value.na) with
      | none =>
        have hbad : coerceRowNum (c₀ :: rest) r = Except.error ⟨400,
            "Column '" ++ c₀ ++ "' must be numeric. Received: " ++
            strOfValue ((r.lookup c₀).getD Value.na)⟩ := by
          simp only [coerceRowNum]
          rw [if_pos hb]
          simp only [hv]
        rw [hbad] at hok
        cases hok
      | some v' =>
        have step : coerceRowNum (c₀ :: rest) r = coerceRowNum rest (setRowVal r c₀ v') := by
          simp only [coerceRowNum]
          rw [if_pos hb]
          simp only [hv]
        rw [step] at hok
        by_cases hc0 : c = c₀
        · subst hc0
          rw [hv]
          simp
        · have hres := ih (setRowVal r c₀ v') hok c
            ((List.mem_cons.mp hcmem).resolve_left hc0)
            (by rw [rowKeys_setRowVal]; exact hck)
          rwa [lookup_setRowVal_ne r c₀ c v' hc0] at hres
    · have hb : ((rowKeys r).contains c₀) = false := by
        rw [contains_eq_decide_mem]; simpa
      have step : coerceRowNum (c₀ :: rest) r = coerceRowNum rest r := by
        simp only [coerceRowNum]
        rw [if_neg (by rw [hb]; simp)]
      rw [step] at hok
      cases List.mem_cons.mp hcmem with
      | inl he => exact absurd (he ▸ hck) hk0
      | inr hr => exact ih r hok c hr hck

theorem find?_map_name_preserving (cols : List Col) (u : Col → Col)
    (hu : ∀ k, (u k).name = k.name) (n : String) :
    (cols.map u).find? (fun c => c.name = n) = (cols.find? (fun c => c.name = n)).map u := by
  induction cols with
  | nil => rfl
  | cons k rest ih =>
    by_cases hn' : k.name = n
    · simp [List.find?_cons, hu k, hn']
    · simp [List.find?_cons, hu k, hn', ih]

theorem coerceDfNum_fails (nums : List String) (df : Df)
    (hex : ∃ c ∈ nums, ∃ col, df.cols.find? (fun k => k.name = c) = some col ∧
      coerceColVals col.values = none) :
    ∃ e, coerceDfNum nums df = Except.error e ∧ e.status = 400 := by
  induction nums generalizing df with
  | nil =>
    obtain ⟨c, hc, _⟩ := hex
    cases hc
  | cons c₀ rest ih =>
    obtain ⟨c, hcmem, col, hfind, hcv⟩ := hex
    have hcolname : col.name = c := by simpa using List.find?_some hfind
    by_cases hk0 : df.names.contains c₀ = true
    · cases hf0 : df.cols.find? (fun k => k.name = c₀) with
      | none =>
        exfalso
        have hmem : c₀ ∈ df.names := by
          rw [contains_eq_decide_mem] at hk0
          exact of_decide_eq_true hk0
        obtain ⟨col0, hcol0, hname⟩ := List.mem_map.mp hmem
        have := List.find?_eq_none.mp hf0 col0 hcol0
        simp [hname] at this
      | some col0 =>
        cases hv0 : coerceColVals col0.values with
        | none =>
          refine ⟨⟨400, "Column '" ++ c₀ ++
            "' must contain only numeric values. Found non-numeric values in your CSV."⟩, ?_, rfl⟩
          simp only [coerceDfNum]
          rw [if_pos hk0]
          simp only [hf0, hv0]
        | some vs =>
          have step : coerceDfNum (c₀ :: rest) df = coerceDfNum rest
              ⟨df.cols.map (fun k => if k.name = c₀ then ⟨c₀, Dtype.float64, vs⟩ else k)⟩ := by
            simp only [coerceDfNum]
            rw [if_pos hk0]
            simp only [hf0, hv0]
          rw [step]
          apply ih
          by_cases hc0 : c = c₀
          · exfalso
            subst hc0
            have : col = col0 := Option.some.inj (hfind.symm.trans hf0)
            rw [this, hv0] at hcv
            cases hcv
          · refine ⟨c, (List.mem_cons.mp hcmem).resolve_left hc0, col, ?_, hcv⟩
            have hmap := find?_map_name_preserving df.cols
              (fun k => if k.name = c₀ then ⟨c₀, Dtype.float64, vs⟩ else k)
              (fun k => by by_cases h' : k.name = c₀ <;> simp [h']) c
            show (df.cols.map _).find? _ = some col
            rw [hmap, hfind]
            simp [hcolname, hc0]
    · have step : coerceDfNum (c₀ :: rest) df = coerceDfNum rest df := by
        simp only [coerceDfNum]
        rw [if_neg hk0]
      rw [step]
      apply ih
      by_cases hc0 : c = c₀
      · exfalso
        subst hc0
        have hmem : col ∈ df.cols := List.mem_of_find?_eq_some hfind
        have : c ∈ df.names := List.mem_map.mpr ⟨col, hmem, hcolname⟩
        exact hk0 (by rw [contains_eq_decide_mem]; simpa)
      · exact ⟨c, (List.mem_cons.mp hcmem).resolve_left hc0, col, hfind, hcv⟩

theorem coerceDfNum_ok (nums : List String) (dff : Df) :
    ∀ df : Df, coerceDfNum nums df = Except.ok dff →
      ∀ c ∈ nums, ∀ col, df.cols.find? (fun k => k.name = c) = some col →
        coerceColVals col.values ≠ none := by
  induction nums with
  | nil =>
    intro df _ c hc
    cases hc
  | cons c₀ rest ih =>
    intro df hok c hcmem col hfind
    have hcolname : col.name = c := by simpa using List.find?_some hfind
    by_cases hk0 : df.names.contains c₀ = true
    · cases hf0 : df.cols.find? (fun k => k.name = c₀) with
      | none =>
        have step : coerceDfNum (c₀ :: rest) df = coerceDfNum rest df := by
          simp only [coerceDfNum]
          rw [if_pos hk0]
          simp only [hf0]
        rw [step] at hok
        cases List.mem_cons.mp hcmem with
        | inl he =>
          subst he
          rw [hfind] at hf0
          cases hf0
        | inr hr => exact ih df hok c hr col hfind
      | some col0 =>
        cases hv0 : coerceColVals col0.values with
        | none =>
          have hbad : coerceDfNum (c₀ :: rest) df = Except.error ⟨400, "Column '" ++ c₀ ++
              "' must contain only numeric values. Found non-numeric values in your CSV."⟩ := by
            simp only [coerceDfNum]
            rw [if_pos hk0]
            simp only [hf0, hv0]
          rw [hbad] at hok
          cases hok
        | some vs =>
          have step : coerceDfNum (c₀ :: rest) df = coerceDfNum rest
              ⟨df.cols.map (fun k => if k.name = c₀ then ⟨c₀, Dtype.float64, vs⟩ else k)⟩ := by
            simp only [coerceDfNum]
            rw [if_pos hk0]
            simp only [hf0, hv0]
          rw [step] at hok
          by_cases hc0 : c = c₀
          · subst hc0
            have : col = col0 := Option.some.inj (hfind.symm.trans hf0)
            rw [this, hv0]
            simp
          · have hmap := find?_map_name_preserving df.cols
              (fun k => if k.name = c₀ then ⟨c₀, Dtype.float64, vs⟩ else k)
              (fun k => by by_cases h' : k.name = c₀ <;> simp [h']) c
            have hfind' : (⟨df.cols.map (fun k => if k.name = c₀ then ⟨c₀, Dtype.float64, vs⟩ else k)⟩ : Df).cols.find?
                (fun k => k.name = c) = some col := by
              show (df.cols.map _).find? _ = some col
              rw [hmap, hfind]
              simp [hcolname, hc0]
            exact ih _ hok c ((List.mem_cons.mp hcmem).resolve_left hc0) col hfind'
    · have step : coerceDfNum (c₀ :: rest) df = coerceDfNum rest df := by
        simp only [coerceDfNum]
        rw [if_neg hk0]
      rw [step] at hok
      cases List.mem_cons.mp hcmem with
      | inl he =>
        exfalso
        subst he
        have hmem : col ∈ df.cols := List.mem_of_find?_eq_some hfind
        have : c ∈ df.names := List.mem_map.mpr ⟨col, hmem, hcolname⟩
        exact hk0 (by rw [contains_eq_decide_mem]; simpa)
      | inr hr => exact ih df hok c hr col hfind

theorem missingCols_eq_nil (feats ks : List String) :
    missingCols feats ks = [] ↔ ∀ c ∈ feats, c ∈ ks := by
  unfold missingCols
  rw [List.filter_eq_nil_iff]
  constructor
  · intro h c hc
    have := h c hc
    rw [contains_eq_decide_mem] at this
    simpa using this
  · intro h c hc
    rw [contains_eq_decide_mem]
    simp [h c hc]

/-- C4: both inference endpoints coerce the schema's numerical columns
with `pd.to_numeric(errors='raise')`: when some numerical column's value
(single record) or some cell of a numerical column (batch CSV) cannot be
coerced to a number, the request fails with an HTTP 400 error (so no
prediction is returned); and whenever a prediction is returned, every
numerical value did coerce. -/
theorem claim_C4 (st : ServerState) (feats nums : List String) (P : PipelineFn)
    (hp : st.pipeline = some P) (hf : st.feature_columns = some feats)
    (hn : st.numerical_columns = some nums) (hsub : ∀ c ∈ nums, c ∈ feats) :
    (∀ input : Row, missingCols feats (rowKeys input) = [] →
      (∃ c ∈ nums, to_numericVal ((input.lookup c).getD Value.na) = none) →
      ∃ e, (predict_single st input).1 = Except.error e ∧ e.status = 400) ∧
    (∀ (input : Row) (r : PredictionResponse),
      (predict_single st input).1 = Except.ok r →
      ∀ c ∈ nums, to_numericVal ((input.lookup c).getD Value.na) ≠ none) ∧
    (∀ (fname : String) (df : Df), pyEndsWith fname ".csv" = true →
      missingCols feats df.names = [] →
      (∃ c ∈ nums, ∃ col, (df.select feats).cols.find? (fun k => k.name = c) = some col ∧
        coerceColVals col.values = none) →
      ∃ e, (predict_batch st fname (Except.ok df)).1 = Except.error e ∧ e.status = 400) ∧
    (∀ (fname : String) (df : Df) (out : Df),
      (predict_batch st fname (Except.ok df)).1 = Except.ok out →
      ∀ c ∈ nums, ∀ col, (df.select feats).cols.find? (fun k => k.name = c) = some col →
        coerceColVals col.values ≠ none) := by
  refine ⟨?_, ?_, ?_, ?_⟩
  · intro input hm hex
    obtain ⟨c, hcn, hcv⟩ := hex
    have hcf : c ∈ feats := hsub c hcn
    obtain ⟨e, he, hst⟩ := coerceRowNum_fails nums (rowSelect feats input)
      ⟨c, hcn, by rw [rowKeys_rowSelect]; exact hcf,
        by rw [lookup_rowSelect feats input c hcf]; simpa using hcv⟩
    refine ⟨e, ?_, hst⟩
    simp only [predict_single, hp, Option.isNone_some, Bool.false_eq_true, if_false]
    unfold predictSingleBody
    simp only [hf, hn, Option.getD_some]
    rw [if_neg (by simp [hm])]
    simp only [he]
    simp [wrapHTTP]
  · intro input r hok c hcn
    have hcf : c ∈ feats := hsub c hcn
    simp only [predict_single, hp, Option.isNone_some, Bool.false_eq_true, if_false] at hok
    have hbody : predictSingleBody st input = Except.ok r := by
      cases hb : predictSingleBody st input with
      | error pe =>
        rw [hb] at hok
        cases pe <;> simp [wrapHTTP] at hok
      | ok r2 =>
        rw [hb] at hok
        simp [wrapHTTP] at hok
        rw [hok]
    unfold predictSingleBody at hbody
    simp only [hf, hn, Option.getD_some] at hbody
    by_cases hm : missingCols feats (rowKeys input) ≠ []
    · rw [if_pos hm] at hbody
      cases hbody
    · rw [if_neg hm] at hbody
      cases hcr : coerceRowNum nums (rowSelect feats input) with
      | error e =>
        rw [hcr] at hbody
        cases hbody
      | ok row2 =>
        have := coerceRowNum_ok nums row2 (rowSelect feats input) hcr c hcn
          (by rw [rowKeys_rowSelect]; exact hcf)
        rw [lookup_rowSelect feats input c hcf] at this
        simpa using this
  · intro fname df hcsv hm hex
    obtain ⟨e, he, hst⟩ := coerceDfNum_fails nums (df.select feats) hex
    refine ⟨e, ?_, hst⟩
    simp only [predict_batch, hp, Option.isNone_some, Bool.false_eq_true, if_false,
      hcsv, Bool.not_true]
    unfold predictBatchBody
    simp only [hf, hn, Option.getD_some]
    rw [if_neg (by simp [hm])]
    simp only [he]
    simp [wrapHTTP]
  · intro fname df out hok c hcn col hfind
    by_cases hcsv : pyEndsWith fname ".csv" = true
    · simp only [predict_batch, hp, Option.isNone_some, Bool.false_eq_true, if_false,
        hcsv, Bool.not_true] at hok
      have hbody : predictBatchBody st (Except.ok df) = Except.ok out := by
        cases hb : predictBatchBody st (Except.ok df) with
        | error pe =>
          rw [hb] at hok
          cases pe <;> simp [wrapHTTP] at hok
        | ok o2 =>
          rw [hb] at hok
          simp [wrapHTTP] at hok
          rw [hok]
      unfold predictBatchBody at hbody
      simp only [hf, hn, Option.getD_some] at hbody
      by_cases hm : missingCols feats df.names ≠ []
      · rw [if_pos hm] at hbody
        cases hbody
      · rw [if_neg hm] at hbody
        cases hcr : coerceDfNum nums (df.select feats) with
        | error e =>
          rw [hcr] at hbody
          cases hbody
        | ok dff =>
          exact coerceDfNum_ok nums dff (df.select feats) hcr c hcn col hfind
    · exfalso
      have hb : pyEndsWith fname ".csv" = false := Bool.eq_false_iff.mpr hcsv
      simp [predict_batch, hp, hb] at hok

/-- C4 witness: on `stW`, a record whose numerical column `Age` holds the
non-numeric string `"abc"` is rejected with status 400, while a record
with a numeric string `"31.5"` for `Age` yields a prediction with every
numerical value coerced. -/
theorem claim_C4_witness :
    missingCols ["Age", "Geography"]
      (rowKeys [("Age", Value.str "abc"), ("Geography", Value.str "France")]) = [] ∧
    (∃ e, (predict_single stW
      [("Age", Value.str "abc"), ("Geography", Value.str "France")]).1 =
        Except.error e ∧ e.status = 400) :=
  ⟨by decide,
   (claim_C4 stW ["Age", "Geography"] ["Age"] pipeFnW rfl rfl rfl (by decide)).1
     [("Age", Value.str "abc"), ("Geography", Value.str "France")] (by decide)
     ⟨"Age", by decide, by decide⟩⟩

/-- C7: failure handling in `/train`, `/predict` and `/predict-batch` is
exactly the generic mapping `wrapHTTP` applied to one run of the handler
body (no retry): an `HTTPException` raised inside the handler propagates
unchanged, and any other exception becomes an HTTP 500 whose detail is
the handler's message head followed by the exception message. -/
theorem claim_C7 :
    (∀ (o : TrainOracle) (st : ServerState) (target : Option String),
      (train_model o st target).1 = wrapHTTP "Training error: " (trainBody o st target).1) ∧
    (∀ (st : ServerState) (input : Row) (P : PipelineFn), st.pipeline = some P →
      (predict_single st input).1 =
        wrapHTTP "Prediction error: " (predictSingleBody st input)) ∧
    (∀ (st : ServerState) (fname : String) (d : Except String Df) (P : PipelineFn),
      st.pipeline = some P → pyEndsWith fname ".csv" = true →
      (predict_batch st fname d).1 =
        wrapHTTP "Batch prediction error: " (predictBatchBody st d)) ∧
    (∀ (msgHead : String) (e : HTTPError),
      wrapHTTP (α := TrainingResponse) msgHead (Except.error (PyExc.http e)) =
        Except.error e) ∧
    (∀ (msgHead m : String),
      wrapHTTP (α := TrainingResponse) msgHead (Except.error (PyExc.other m)) =
        Except.error ⟨500, msgHead ++ m⟩) := by
  refine ⟨?_, ?_, ?_, ?_, ?_⟩
  · intro o st target
    rfl
  · intro st input P hsp
    simp [predict_single, hsp]
  · intro st fname d P hsp hcsv
    simp [predict_batch, hsp, hcsv]
  · intro msgHead e
    rfl
  · intro msgHead m
    rfl

/-- C7 witness: the mapping exercised at concrete inputs: a pipeline
failure inside `/predict` surfaces as exactly the 500 produced by
`wrapHTTP` over the body's outcome. -/
theorem claim_C7_witness :
    (predict_single stW [("Age", Value.num 30), ("Geography", Value.str "France")]).1 =
      wrapHTTP "Prediction error: "
        (predictSingleBody stW [("Age", Value.num 30), ("Geography", Value.str "France")]) :=
  claim_C7.2.1 stW [("Age", Value.num 30), ("Geography", Value.str "France")] pipeFnW rfl

/-- C6 counterexample: `/schema` is not read-only: on the fresh state
(no in-memory schema) with a readable saved blob on disk, `get_schema`
assigns the schema globals — `feature_columns` goes from `None` to the
blob's columns — so `/train` is not the only endpoint mutating this
state. -/
theorem claim_C6_counterexample :
    stEmpty.feature_columns = none ∧
    ((get_schema stEmpty (some (Except.ok mdW))).2).feature_columns =
      some ["Age", "Geography"] :=
  ⟨rfl, rfl⟩

/-- C6 amended: the pipeline and model references are mutated by no
endpoint other than `/train`; `/predict`, `/predict-batch`, `/`,
`/health` and `/model-info` leave the whole state unchanged; `/schema`
either leaves the state unchanged or (only when the in-memory schema is
unset and a readable blob exists on disk) sets the five schema globals to
the blob's contents. -/
theorem claim_C6 :
    (∀ (st : ServerState) (input : Row), (predict_single st input).2 = st) ∧
    (∀ (st : ServerState) (fname : String) (d : Except String Df),
      (predict_batch st fname d).2 = st) ∧
    (∀ st : ServerState, (root_endpoint st).2 = st) ∧
    (∀ st : ServerState, (health_check st).2 = st) ∧
    (∀ st : ServerState, (get_model_info st).2 = st) ∧
    (∀ (st : ServerState) (disk : Option (Except String ModelData)),
      ((get_schema st disk).2).pipeline = st.pipeline ∧
      ((get_schema st disk).2).model = st.model ∧
      (st.feature_columns ≠ none → (get_schema st disk).2 = st) ∧
      ((get_schema st disk).2 = st ∨ ∃ md, disk = some (Except.ok md) ∧
        st.feature_columns = none ∧
        (get_schema st disk).2 = { st with
          feature_columns := some md.feature_columns,
          target_column := some md.target_column,
          categorical_columns := some md.categorical_columns,
          numerical_columns := some md.numerical_columns,
          categorical_values := some md.categorical_values })) := by
  refine ⟨?_, ?_, ?_, ?_, ?_, ?_⟩
  · intro st input
    by_cases h : st.pipeline.isNone = true <;> simp [predict_single, h]
  · intro st fname d
    unfold predict_batch
    by_cases h1 : st.pipeline.isNone = true
    · simp [h1]
    · by_cases h2 : (!pyEndsWith fname ".csv") = true <;> simp [h1, h2]
  · intro st
    rfl
  · intro st
    rfl
  · intro st
    rfl
  · intro st disk
    unfold get_schema
    cases hfc : st.feature_columns with
    | some feats => exact ⟨rfl, rfl, fun _ => rfl, Or.inl rfl⟩
    | none =>
      cases disk with
      | none => exact ⟨rfl, rfl, fun h => absurd rfl h, Or.inl rfl⟩
      | some r =>
        cases r with
        | error e => exact ⟨rfl, rfl, fun h => absurd rfl h, Or.inl rfl⟩
        | ok md => exact ⟨rfl, rfl, fun h => absurd rfl h, Or.inr ⟨md, rfl, rfl, rfl⟩⟩

/-- C6 witness: the amended claim at a concrete state: `/predict` leaves
the trained state `stW` unchanged, and on `stW` (whose schema is set)
`/schema` leaves the state unchanged as well. -/
theorem claim_C6_witness :
    (predict_single stW [("Age", Value.num 30)]).2 = stW ∧
    (get_schema stW none).2 = stW :=
  ⟨claim_C6.1 stW [("Age", Value.num 30)],
   (claim_C6.2.2.2.2.2 stW none).2.2.1 (by simp [stW])⟩

/-- C5: on a successful `/train` call, the response metrics contain
accuracy, precision, recall, f1_score, roc_auc and the confusion matrix
(true/false positives/negatives), and the fitted pipeline together with
the schema metadata is saved to `model/model.joblib` before the response
is returned (the save event precedes the respond event in the handler's
effect trace). -/
theorem claim_C5 (o : TrainOracle) (st : ServerState) (target : Option String)
    (r : TrainingResponse) (hok : (train_model o st target).1 = Except.ok r) :
    r.metrics.lookup "accuracy" = some (MetricValue.num o.accuracy) ∧
    r.metrics.lookup "precision" = some (MetricValue.num o.precision) ∧
    r.metrics.lookup "recall" = some (MetricValue.num o.recallScore) ∧
    r.metrics.lookup "f1_score" = some (MetricValue.num o.f1) ∧
    r.metrics.lookup "roc_auc" = some (MetricValue.num o.roc_auc) ∧
    r.metrics.lookup "confusion_matrix" =
      some (MetricValue.cmat o.tn o.fp o.fn o.tp) ∧
    (∃ md : ModelData,
      (train_model o st target).2.2 =
        [TrainEvent.save "model/model.joblib" md, TrainEvent.respond r] ∧
      md.pipeline = o.fitted ∧
      md.feature_columns = r.feature_columns ∧
      md.target_column = r.target_column ∧
      md.categorical_columns = r.categorical_columns ∧
      md.numerical_columns = r.numerical_columns ∧
      some md.categorical_values =
        ((train_model o st target).2.1).categorical_values) := by
  unfold train_model trainBody at hok ⊢
  cases hde : o.dataExists with
  | false => simp [hde, wrapHTTP] at hok
  | true =>
    simp only [hde, Bool.not_true, Bool.false_eq_true, if_false] at hok ⊢
    cases hdt : detect_target_column o.df.names target with
    | error m => simp [hdt, wrapHTTP] at hok
    | ok tc =>
      simp only [hdt] at hok ⊢
      rcases hdc : detect_column_types (Df.select o.df
          ((o.df.names).filter (fun c => c ≠ tc && !pyEndsWith (pyLower c) "id"))).cols
        with ⟨nums, cats⟩
      simp only [hdc] at hok ⊢
      cases hsp : o.splitError with
      | some m => simp [hsp, wrapHTTP] at hok
      | none =>
        simp only [hsp] at hok ⊢
        by_cases hcn : (cats = [] && nums = []) = true
        · rw [if_pos hcn] at hok
          simp [wrapHTTP] at hok
        · rw [if_neg hcn] at hok ⊢
          cases hml : o.mlError with
          | some m => simp [hml, wrapHTTP] at hok
          | none =>
            simp only [hml] at hok ⊢
            simp only [wrapHTTP, Except.ok.injEq] at hok
            subst hok
            exact ⟨rfl, rfl, rfl, rfl, rfl, rfl, _, rfl, rfl, rfl, rfl, rfl, rfl, rfl⟩

/-- C5 witness: a successful concrete training run on the sample oracle
`oW`, showing the returned response and the persisted blob. -/
theorem claim_C5_witness :
    ((train_model oW stEmpty none).1 = Except.ok
      ⟨"Model trained successfully",
       [("accuracy", MetricValue.num 1), ("precision", MetricValue.num 1),
        ("recall", MetricValue.num 1), ("f1_score", MetricValue.num 1),
        ("roc_auc", MetricValue.num 1), ("confusion_matrix", MetricValue.cmat 1 0 0 1)],
       "Churn", ["Age", "Geography"], ["Geography"], ["Age"]⟩) ∧
    (⟨"Model trained successfully",
       [("accuracy", MetricValue.num 1), ("precision", MetricValue.num 1),
        ("recall", MetricValue.num 1), ("f1_score", MetricValue.num 1),
        ("roc_auc", MetricValue.num 1), ("confusion_matrix", MetricValue.cmat 1 0 0 1)],
       "Churn", ["Age", "Geography"], ["Geography"], ["Age"]⟩ : TrainingResponse).metrics.lookup
      "roc_auc" = some (MetricValue.num oW.roc_auc) :=
  ⟨rfl,
   (claim_C5 oW stEmpty none _ rfl).2.2.2.2.1⟩

theorem select_names_mem (df : Df) (feats : List String) :
    ∀ c ∈ (df.select feats).cols, c.name ∈ feats := by
  intro c hc
  unfold Df.select at hc
  obtain ⟨n, hn, hfind⟩ := List.mem_filterMap.mp hc
  have hname := List.find?_some hfind
  simp only [decide_eq_true_eq] at hname
  exact hname ▸ hn

/-- C8: on every training run that persists a blob, the blob's feature
columns are exactly the dataset's columns in dataset order with the
detected target column and every column whose lowercase name ends in
`id` removed; and those excluded columns appear nowhere in the persisted
schema (feature, numerical or categorical lists, or the categorical
values map). -/
theorem claim_C8 (o : TrainOracle) (st : ServerState) (target : Option String)
    (path : String) (md : ModelData)
    (hsave : TrainEvent.save path md ∈ (train_model o st target).2.2) :
    md.feature_columns.Sublist o.df.names ∧
    (∀ c, c ∈ md.feature_columns ↔ (c ∈ o.df.names ∧ c ≠ md.target_column ∧
      pyEndsWith (pyLower c) "id" = false)) ∧
    (∀ c, (c = md.target_column ∨ pyEndsWith (pyLower c) "id" = true) →
      c ∉ md.feature_columns ∧ c ∉ md.numerical_columns ∧
      c ∉ md.categorical_columns ∧ (∀ vs, (c, vs) ∉ md.categorical_values)) := by
  unfold train_model trainBody at hsave
  cases hde : o.dataExists with
  | false => simp [hde] at hsave
  | true =>
    simp only [hde, Bool.not_true, Bool.false_eq_true, if_false] at hsave
    cases hdt : detect_target_column o.df.names target with
    | error m => simp [hdt] at hsave
    | ok tc =>
      simp only [hdt] at hsave
      rcases hdc : detect_column_types (Df.select o.df
          ((o.df.names).filter (fun c => c ≠ tc && !pyEndsWith (pyLower c) "id"))).cols
        with ⟨nums, cats⟩
      simp only [hdc] at hsave
      cases hsp : o.splitError with
      | some m => simp [hsp] at hsave
      | none =>
        simp only [hsp] at hsave
        by_cases hcn : (cats = [] && nums = []) = true
        · rw [if_pos hcn] at hsave
          simp at hsave
        · rw [if_neg hcn] at hsave
          cases hml : o.mlError with
          | some m => simp [hml] at hsave
          | none =>
            simp only [hml, List.mem_cons, List.mem_singleton] at hsave
            rcases hsave with hsave | hsave
            · rw [TrainEvent.save.injEq] at hsave
              obtain ⟨hpath, hmd⟩ := hsave
              subst hmd
              have hnumssub : ∀ c ∈ nums, c ∈ (o.df.names).filter
                  (fun c => c ≠ tc && !pyEndsWith (pyLower c) "id") := by
                intro c hc
                have heq := detect_column_types_eq_filter (Df.select o.df
                  ((o.df.names).filter (fun c => c ≠ tc && !pyEndsWith (pyLower c) "id"))).cols
                rw [hdc] at heq
                have hn : nums = ((Df.select o.df ((o.df.names).filter
                    (fun c => c ≠ tc && !pyEndsWith (pyLower c) "id"))).cols.filter
                    (fun c => isNumericalCol c)).map Col.name := congrArg Prod.fst heq
                rw [hn] at hc
                obtain ⟨col, hcolmem, hcolname⟩ := List.mem_map.mp hc
                exact hcolname ▸ select_names_mem _ _ col (List.mem_of_mem_filter hcolmem)
              have hcatssub : ∀ c ∈ cats, c ∈ (o.df.names).filter
                  (fun c => c ≠ tc && !pyEndsWith (pyLower c) "id") := by
                intro c hc
                have heq := detect_column_types_eq_filter (Df.select o.df
                  ((o.df.names).filter (fun c => c ≠ tc && !pyEndsWith (pyLower c) "id"))).cols
                rw [hdc] at heq
                have hn : cats = ((Df.select o.df ((o.df.names).filter
                    (fun c => c ≠ tc && !pyEndsWith (pyLower c) "id"))).cols.filter
                    (fun c => !isNumericalCol c)).map Col.name := congrArg Prod.snd heq
                rw [hn] at hc
                obtain ⟨col, hcolmem, hcolname⟩ := List.mem_map.mp hc
                exact hcolname ▸ select_names_mem _ _ col (List.mem_of_mem_filter hcolmem)
              have hfiltmem : ∀ c, c ∈ (o.df.names).filter
                  (fun c => c ≠ tc && !pyEndsWith (pyLower c) "id") ↔
                  (c ∈ o.df.names ∧ c ≠ tc ∧ pyEndsWith (pyLower c) "id" = false) := by
                intro c
                rw [List.mem_filter]
                simp [Bool.and_eq_true, Bool.not_eq_true']
              refine ⟨List.filter_sublist _, hfiltmem, ?_⟩
              intro c hbad
              have hnot : c ∉ (o.df.names).filter
                  (fun c => c ≠ tc && !pyEndsWith (pyLower c) "id") := by
                rw [hfiltmem]
                rintro ⟨_, hne, hnend⟩
                rcases hbad with hbad | hbad
                · exact hne hbad
                · rw [hbad] at hnend
                  cases hnend
              refine ⟨hnot, fun hmem => hnot (hnumssub c hmem),
                fun hmem => hnot (hcatssub c hmem), ?_⟩
              intro vs hmem
              obtain ⟨c2, hc2, hpair⟩ := List.mem_map.mp hmem
              rw [Prod.mk.injEq] at hpair
              exact hnot (hcatssub c (hpair.1 ▸ hc2))
            · rcases hsave with hsave | hsave <;> cases hsave

/-- C8 witness: the property exercised on the sample oracle `oW`, whose
dataset has target `Churn` and an excluded `CustomerId` column. -/
theorem claim_C8_witness :
    (TrainEvent.save "model/model.joblib"
      ⟨pipeFnW, ["Age", "Geography"], "Churn", ["Geography"], ["Age"],
       [("Geography", ["France", "Spain"])]⟩ ∈ (train_model oW stEmpty none).2.2) ∧
    (("CustomerId" : String) ∉ (["Age", "Geography"] : List String)) :=
  ⟨List.mem_cons_self _ _,
   ((claim_C8 oW stEmpty none "model/model.joblib"
      ⟨pipeFnW, ["Age", "Geography"], "Churn", ["Geography"], ["Age"],
       [("Geography", ["France", "Spain"])]⟩ (List.mem_cons_self _ _)).2.2
     "CustomerId" (Or.inr (by decide))).1⟩

theorem mapRows_ok_length (P : PipelineFn) :
    ∀ (rows : List Row) (rs : List (Int × ℚ)),
      mapRows P rows = Except.ok rs → rs.length = rows.length := by
  intro rows
  induction rows with
  | nil =>
    intro rs h
    cases h
    rfl
  | cons row rest ih =>
    intro rs h
    simp only [mapRows] at h
    cases hP : P row with
    | error m =>
      rw [hP] at h
      cases h
    | ok pr =>
      rw [hP] at h
      cases hr : mapRows P rest with
      | error m =>
        rw [hr] at h
        cases h
      | ok rs2 =>
        rw [hr] at h
        cases h
        simp [ih rs2 hr]

theorem coerceColVals_length :
    ∀ (vs vs2 : List Value), coerceColVals vs = some vs2 → vs2.length = vs.length := by
  intro vs
  induction vs with
  | nil =>
    intro vs2 h
    cases h
    rfl
  | cons v rest ih =>
    intro vs2 h
    simp only [coerceColVals] at h
    cases hv : to_numericVal v with
    | none =>
      rw [hv] at h
      cases h
    | some v2 =>
      rw [hv] at h
      cases hr : coerceColVals rest with
      | none =>
        rw [hr] at h
        cases h
      | some rest2 =>
        rw [hr] at h
        cases h
        simp [ih rest2 hr]

theorem rows_length (df : Df) : df.rows.length = df.nrows := by
  simp [Df.rows]

theorem coerceDfNum_ok_nrows (nums : List String) :
    ∀ df dff : Df, coerceDfNum nums df = Except.ok dff → dff.nrows = df.nrows := by
  induction nums with
  | nil =>
    intro df dff h
    cases h
    rfl
  | cons c₀ rest ih =>
    intro df dff h
    by_cases hk0 : df.names.contains c₀ = true
    · cases hf0 : df.cols.find? (fun col => col.name = c₀) with
      | none =>
        have step : coerceDfNum (c₀ :: rest) df = coerceDfNum rest df := by
          simp only [coerceDfNum]
          rw [if_pos hk0]
          simp only [hf0]
        rw [step] at h
        exact ih df dff h
      | some col0 =>
        cases hv0 : coerceColVals col0.values with
        | none =>
          have hbad : coerceDfNum (c₀ :: rest) df = Except.error ⟨400, "Column '" ++ c₀ ++
              "' must contain only numeric values. Found non-numeric values in your CSV."⟩ := by
            simp only [coerceDfNum]
            rw [if_pos hk0]
            simp only [hf0, hv0]
          rw [hbad] at h
          cases h
        | some vs =>
          have step : coerceDfNum (c₀ :: rest) df = coerceDfNum rest
              ⟨df.cols.map (fun k => if k.name = c₀ then ⟨c₀, Dtype.float64, vs⟩ else k)⟩ := by
            simp only [coerceDfNum]
            rw [if_pos hk0]
            simp only [hf0, hv0]
          rw [step] at h
          have hstep := ih _ dff h
          rw [hstep]
          cases hcols : df.cols with
          | nil => simp [Df.nrows, hcols]
          | cons hcol t =>
            rw [hcols] at hf0
            by_cases hh : hcol.name = c₀
            · have hfirst : (hcol :: t).find? (fun col => col.name = c₀) = some hcol := by
                rw [List.find?_cons_of_pos]
                simp [hh]
              rw [hfirst] at hf0
              cases hf0
              have hlen : vs.length = col0.values.length := coerceColVals_length _ _ hv0
              simp [Df.nrows, hcols, hh, hlen]
            · simp [Df.nrows, hcols, hh]
    · have step : coerceDfNum (c₀ :: rest) df = coerceDfNum rest df := by
        simp only [coerceDfNum]
        rw [if_neg hk0]
      rw [step] at h
      exact ih df dff h

theorem select_nrows (df : Df) (f0 : String) (frest : List String) (hwf : df.wf)
    (hmem : f0 ∈ df.names) : (df.select (f0 :: frest)).nrows = df.nrows := by
  have hex : ∃ x ∈ df.cols, (fun c : Col => decide (c.name = f0)) x = true := by
    obtain ⟨col, hcol, hname⟩ := List.mem_map.mp hmem
    exact ⟨col, hcol, by simp [hname]⟩
  obtain ⟨col, hfind⟩ := Option.isSome_iff_exists.mp (List.find?_isSome.mpr hex)
  have hcolmem : col ∈ df.cols := List.mem_of_find?_eq_some hfind
  unfold Df.select
  rw [List.filterMap_cons, hfind]
  simp only [Df.nrows, List.head?_cons, Option.map_some, Option.getD_some]
  exact hwf col hcolmem

theorem setCol_not_mem (df : Df) (n : String) (dt : Dtype) (vs : List Value)
    (h : n ∉ df.names) : df.setCol n dt vs = ⟨df.cols ++ [⟨n, dt, vs⟩]⟩ := by
  unfold Df.setCol
  rw [if_neg (by rw [contains_eq_decide_mem]; simp [h])]

/-- C10 counterexample: when the uploaded CSV already contains a column
named `Prediction`, pandas column assignment overwrites it in place
instead of appending: on `stOne` the two-column upload `dfPred`
(`Age`, `Prediction`) yields a three-column output whose second column is
the overwritten `Prediction`, not the original followed by two appended
columns. -/
theorem claim_C10_counterexample :
    (predict_batch stOne "f.csv" (Except.ok dfPred)).1 = Except.ok
      ⟨[⟨"Age", Dtype.float64, [Value.num 30]⟩,
        ⟨"Prediction", Dtype.int64, [Value.num 1]⟩,
        ⟨"Probability", Dtype.float64, [Value.num ((1 : ℚ)/2)]⟩]⟩ ∧
    dfPred.cols.length = 2 ∧
    (⟨[⟨"Age", Dtype.float64, [Value.num 30]⟩,
       ⟨"Prediction", Dtype.int64, [Value.num 1]⟩,
       ⟨"Probability", Dtype.float64, [Value.num ((1 : ℚ)/2)]⟩]⟩ : Df).cols.take 2 ≠
      dfPred.cols := by
  refine ⟨rfl, rfl, ?_⟩
  decide

/-- C10 amended: on a successful `/predict-batch` call whose uploaded CSV
has no column named `Prediction` or `Probability`, the returned CSV is
the uploaded dataframe unchanged (every column, in order, extra columns
included) followed by exactly two appended columns `Prediction` and
`Probability`, each with one value per input row; an uploaded column
already named `Prediction` or `Probability` is instead overwritten in
place. -/
theorem claim_C10 (st : ServerState) (feats : List String) (P : PipelineFn)
    (hp : st.pipeline = some P) (hf : st.feature_columns = some feats)
    (f0 : String) (frest : List String) (hfe : feats = f0 :: frest)
    (df : Df) (hwf : df.wf)
    (hnp : "Prediction" ∉ df.names) (hnq : "Probability" ∉ df.names)
    (fname : String) (out : Df)
    (hok : (predict_batch st fname (Except.ok df)).1 = Except.ok out) :
    ∃ pv qv : List Value,
      out.cols = df.cols ++ [⟨"Prediction", Dtype.int64, pv⟩, ⟨"Probability", Dtype.float64, qv⟩] ∧
      pv.length = df.nrows ∧ qv.length = df.nrows := by
  by_cases hcsv : pyEndsWith fname ".csv" = true
  · simp only [predict_batch, hp, Option.isNone_some, Bool.false_eq_true, if_false,
      hcsv, Bool.not_true] at hok
    have hbody : predictBatchBody st (Except.ok df) = Except.ok out := by
      cases hb : predictBatchBody st (Except.ok df) with
      | error pe =>
        rw [hb] at hok
        cases pe <;> simp [wrapHTTP] at hok
      | ok o2 =>
        rw [hb] at hok
        simp [wrapHTTP] at hok
        rw [hok]
    unfold predictBatchBody at hbody
    simp only [hf] at hbody
    by_cases hm : missingCols feats df.names ≠ []
    · rw [if_pos hm] at hbody
      cases hbody
    · rw [if_neg hm] at hbody
      have hmnil : missingCols feats df.names = [] := not_not.mp hm
      have hfeats_mem : ∀ c ∈ feats, c ∈ df.names :=
        (missingCols_eq_nil feats df.names).mp hmnil
      cases hcr : coerceDfNum (st.numerical_columns.getD []) (df.select feats) with
      | error e =>
        rw [hcr] at hbody
        cases hbody
      | ok dff =>
        rw [hcr] at hbody
        simp only [hp] at hbody
        cases hr : mapRows P dff.rows with
        | error m =>
          rw [hr] at hbody
          cases hbody
        | ok rs =>
          rw [hr] at hbody
          simp only [Except.ok.injEq] at hbody
          have hlen : rs.length = df.nrows := by
            rw [mapRows_ok_length P dff.rows rs hr, rows_length,
              coerceDfNum_ok_nrows _ _ _ hcr, hfe]
            exact select_nrows df f0 frest hwf (hfeats_mem f0 (by rw [hfe]; exact List.mem_cons_self _ _))
          refine ⟨rs.map (fun r => Value.num (r.1 : ℚ)), rs.map (fun r => Value.num r.2), ?_, ?_, ?_⟩
          · rw [← hbody]
            rw [setCol_not_mem df "Prediction" Dtype.int64 _ hnp]
            have hnq2 : "Probability" ∉ (⟨df.cols ++
                [⟨"Prediction", Dtype.int64, rs.map (fun r => Value.num (r.1 : ℚ))⟩]⟩ : Df).names := by
              simp only [Df.names, List.map_append, List.mem_append]
              rintro (hmem | hmem)
              · exact hnq hmem
              · simp at hmem
            rw [setCol_not_mem _ "Probability" Dtype.float64 _ hnq2]
            simp [List.append_assoc]
          · simp [hlen]
          · simp [hlen]
  · exfalso
    have hb : pyEndsWith fname ".csv" = false := Bool.eq_false_iff.mpr hcsv
    simp [predict_batch, hp, hb] at hok

/-- C10 witness: the amended claim on `stOne` with a two-row single
column upload: the output is the input column followed by the appended
`Prediction` and `Probability` columns with two values each. -/
theorem claim_C10_witness :
    ∃ pv qv : List Value,
      (⟨[⟨"Age", Dtype.float64, [Value.num 30, Value.num 40]⟩,
         ⟨"Prediction", Dtype.int64, [Value.num 1, Value.num 1]⟩,
         ⟨"Probability", Dtype.float64,
          [Value.num ((1 : ℚ)/2), Value.num ((1 : ℚ)/2)]⟩]⟩ : Df).cols =
        (⟨[⟨"Age", Dtype.float64, [Value.num 30, Value.num 40]⟩]⟩ : Df).cols ++
          [⟨"Prediction", Dtype.int64, pv⟩, ⟨"Probability", Dtype.float64, qv⟩] ∧
      pv.length = (⟨[⟨"Age", Dtype.float64, [Value.num 30, Value.num 40]⟩]⟩ : Df).nrows ∧
      qv.length = (⟨[⟨"Age", Dtype.float64, [Value.num 30, Value.num 40]⟩]⟩ : Df).nrows :=
  claim_C10 stOne ["Age"] pipeFnW rfl rfl "Age" [] rfl
    ⟨[⟨"Age", Dtype.float64, [Value.num 30, Value.num 40]⟩]⟩
    (by intro c hc; fin_cases hc; rfl)
    (by decide) (by decide) "f.csv" _ rfl

end Churn
